import Mathlib

/-!
Shallow embedding of `gists_gone.py` (the gists-gone CLI): the Gist data
model, the date parsers (CPython `strptime` with the two fixed formats the
source uses), the record normalizer `create_gists`, the filter engine
`filter_gists`, the paginated fetch loop of `cli`, and `delete_gists`.
Effects (network calls, sleeps, prompts, prints) are modelled as explicit
event traces; exceptions are modelled with `Except`/`Option`.
-/

namespace GistsGone

/-- A Python scalar value, as far as the truthiness test `if visibility:`
in `create_gists` needs it: the raw `"public"` field of a gist record can
in principle hold any JSON scalar. -/
inductive PyVal where
  | pyNone
  | pyBool (b : Bool)
  | pyInt (n : Int)
  | pyStr (s : String)
deriving DecidableEq, Repr

/-- Python truthiness of a scalar: `None`, `False`, `0`, `""` are falsy. -/
def PyVal.truthy : PyVal → Bool
  | .pyNone => false
  | .pyBool b => b
  | .pyInt n => decide (n ≠ 0)
  | .pyStr s => decide (s ≠ "")

/-- Truthiness of `raw_gist.get("public")`: a missing key gives `None`,
which is falsy. -/
def truthyOpt : Option PyVal → Bool
  | Option.none => false
  | some v => v.truthy

/-- A calendar date, as produced by `datetime.date()`. -/
structure Date where
  year : Nat
  month : Nat
  day : Nat
deriving DecidableEq, Repr

/-- Python `date` comparison is lexicographic on (year, month, day). -/
def Date.le (a b : Date) : Bool :=
  decide (a.year < b.year ∨ (a.year = b.year ∧
    (a.month < b.month ∨ (a.month = b.month ∧ a.day ≤ b.day))))

/-- A `datetime` as produced by `strptime` with format
`%Y-%m-%dT%H:%M:%SZ`; `.date()` projects out `date`. -/
structure DateTime where
  date : Date
  hour : Nat
  minute : Nat
  second : Nat
deriving DecidableEq, Repr

/-- Numeric value of a decimal digit character. -/
def digitVal (c : Char) : Nat := c.toNat - 48

/-- The `strptime` directive `%Y`: exactly four decimal digits
(CPython `_strptime` regex `\d\d\d\d`). -/
def readYear : List Char → Option (Nat × List Char)
  | a :: b :: c :: d :: rest =>
    if a.isDigit && b.isDigit && c.isDigit && d.isDigit then
      some (((digitVal a * 10 + digitVal b) * 10 + digitVal c) * 10 + digitVal d, rest)
    else Option.none
  | _ => Option.none

/-- A two-digit-or-one-digit `strptime` numeric directive: the two-digit
alternatives are tried first and accept exactly the values in
`[lo2, hi2]`; otherwise a single digit in `[lo1, hi1]` is taken.  This is
the behaviour of the `_strptime` regexes such as `1[0-2]|0[1-9]|[1-9]`
for `%m` (two digits 1–12, else one digit 1–9); backtracking into the
one-digit alternative can never rescue a parse here because every
directive in the two formats used is followed by a non-digit literal or
the end of the input. -/
def readNum2or1 (lo2 hi2 lo1 hi1 : Nat) : List Char → Option (Nat × List Char)
  | a :: b :: rest =>
    if a.isDigit && b.isDigit &&
        decide (lo2 ≤ digitVal a * 10 + digitVal b) &&
        decide (digitVal a * 10 + digitVal b ≤ hi2) then
      some (digitVal a * 10 + digitVal b, rest)
    else if a.isDigit && decide (lo1 ≤ digitVal a) && decide (digitVal a ≤ hi1) then
      some (digitVal a, b :: rest)
    else Option.none
  | [a] =>
    if a.isDigit && decide (lo1 ≤ digitVal a) && decide (digitVal a ≤ hi1) then
      some (digitVal a, [])
    else Option.none
  | [] => Option.none

/-- A literal character of the format string; `_strptime` compiles its
regex with `IGNORECASE`, hence the case-insensitive comparison. -/
def readLit (want : Char) : List Char → Option (List Char)
  | c :: rest => if c.toLower = want.toLower then some rest else Option.none
  | [] => Option.none

/-- Gregorian leap year, as used by `datetime`. -/
def isLeap (y : Nat) : Bool := y % 4 == 0 && (y % 100 != 0 || y % 400 == 0)

/-- Days in a month, as validated by the `datetime` constructor. -/
def daysInMonth (y m : Nat) : Nat :=
  if m == 2 then (if isLeap y then 29 else 28)
  else if m == 4 || m == 6 || m == 9 || m == 11 then 30
  else 31

/-- Model of `datetime.strptime(s, "%Y-%m-%d").date()`: the `_strptime` regex must
consume the whole string, and the `datetime` constructor then validates
`1 <= year` and the day against the month length. Returns `none` where
Python raises `ValueError`. -/
def strptimeYMD (s : String) : Option Date := do
  let (y, r1) ← readYear s.toList
  let r2 ← readLit '-' r1
  let (m, r3) ← readNum2or1 1 12 1 9 r2
  let r4 ← readLit '-' r3
  let (d, r5) ← readNum2or1 1 31 1 9 r4
  if r5 = [] ∧ 1 ≤ y ∧ d ≤ daysInMonth y m then
    return ⟨y, m, d⟩
  else
    Option.none

/-- Model of `datetime.strptime(s, "%Y-%m-%dT%H:%M:%SZ")`: `%H` is two digits
0–23 or one digit 0–9, `%M` two digits 0–59 or one digit, `%S` two digits
0–61 or one digit (the regex admits leap seconds, which the `datetime`
constructor then rejects — hence the `sec ≤ 59` validation). Returns
`none` where Python raises `ValueError`. -/
def strptimeTS (s : String) : Option DateTime := do
  let (y, r1) ← readYear s.toList
  let r2 ← readLit '-' r1
  let (mo, r3) ← readNum2or1 1 12 1 9 r2
  let r4 ← readLit '-' r3
  let (d, r5) ← readNum2or1 1 31 1 9 r4
  let r6 ← readLit 'T' r5
  let (h, r7) ← readNum2or1 0 23 0 9 r6
  let r8 ← readLit ':' r7
  let (mi, r9) ← readNum2or1 0 59 0 9 r8
  let r10 ← readLit ':' r9
  let (sec, r11) ← readNum2or1 0 61 0 9 r10
  let r12 ← readLit 'Z' r11
  if r12 = [] ∧ 1 ≤ y ∧ d ≤ daysInMonth y mo ∧ sec ≤ 59 then
    return ⟨⟨y, mo, d⟩, h, mi, sec⟩
  else
    Option.none

/-- A raw gist record, as returned by the API: exactly the keys
`create_gists` reads.  `public` holds the raw value of the `"public"`
key, `Option.none` when the key is missing (`raw_gist.get("public")`
yields `None` then); `files` is the per-file mapping in its received
(insertion) order, each entry carrying the filename and the value of its
`"language"` key (`Option.none` for JSON `null`); `created_at` is the
timestamp string. -/
structure RawGist where
  id : String
  public : Option PyVal
  files : List (String × Option String)
  created_at : String
deriving DecidableEq, Repr

/-- The `Gist` namedtuple. -/
structure Gist where
  id : String
  visibility : String
  language : String
  created_date : Date
deriving DecidableEq, Repr

/-- The exceptions the modelled code can raise. -/
inductive Err where
  | stopIteration -- next(iter({})) on an empty files mapping
  | valueError    -- strptime failure
  | httpError     -- raise_for_status on a non-success response
deriving DecidableEq, Repr

/-- One iteration of the loop body of `create_gists`: the first file's
language (`next(iter(raw_gist["files"]))` raises `StopIteration` on an
empty mapping), `"Unknown"` substituted for a null language, then the
truthiness test on `raw_gist.get("public")`, and the parsed timestamp's
calendar date. -/
def createGist (raw : RawGist) : Except Err Gist :=
  match raw.files with
  | [] => .error .stopIteration
  | (_, lang) :: _ =>
    let languages := match lang with
      | Option.none => "Unknown"
      | some l => l
    match strptimeTS raw.created_at with
    | Option.none => .error .valueError
    | some dateCreated =>
      let visibility := if truthyOpt raw.public then "public" else "secret"
      .ok ⟨raw.id, visibility, languages, dateCreated.date⟩

/-- Model of `create_gists(json)`: one `Gist` appended per raw record, in order;
the first raised exception propagates. -/
def create_gists : List RawGist → Except Err (List Gist)
  | [] => .ok []
  | raw :: rest =>
    match createGist raw with
    | .error e => .error e
    | .ok g =>
      match create_gists rest with
      | .error e => .error e
      | .ok gs => .ok (g :: gs)

/-- The exceptions `parse_date_arguments` raises. -/
inductive ParseErr where
  | typeError  -- "Too many arguments passed to the -dr flag. Only pass max 2 dates."
  | valueError -- "Please pass a date in YYYY-MM-DD format to the -dr argument."
deriving DecidableEq, Repr

/-- The `for argument in date_arguments` loop of `parse_date_arguments`:
parse each string with `%Y-%m-%d`, appending in order; a bad string
raises `ValueError`. -/
def parseDatesLoop : List String → Except ParseErr (List Date)
  | [] => .ok []
  | a :: rest =>
    match strptimeYMD a with
    | Option.none => .error .valueError
    | some d =>
      match parseDatesLoop rest with
      | .error e => .error e
      | .ok ds => .ok (d :: ds)

/-- Model of `parse_date_arguments(date_arguments)`: note the guard is
`len(date_arguments) == 3` — only a list of exactly three strings raises
`TypeError`. -/
def parse_date_arguments (dateArguments : List String) : Except ParseErr (List Date) :=
  if dateArguments.length = 3 then .error .typeError
  else parseDatesLoop dateArguments

/-- The `relevant_args` triple handed to `filter_gists`: positions 0, 1, 2
of the positional list (visibility, languages, date_range), `Option.none`
for an argument the user did not pass. -/
structure Criteria where
  visibility : Option String
  languages : Option (List String)
  date_range : Option (List Date)
deriving DecidableEq, Repr

/-- The date-range test of `filter_gists` (index 2): a one-element list
matches on equality, otherwise `argument[0] <= created_date <= argument[1]`.
(On an empty list Python would raise `IndexError`; that input is
unreachable, since the CLI's `nargs="+"` guarantees at least one date.) -/
def dateMatch (ds : List Date) (d : Date) : Bool :=
  match ds with
  | [e] => d == e
  | e0 :: e1 :: _ => Date.le e0 d && Date.le d e1
  | [] => false

/-- The visibility test of `filter_gists` (index 0): `argument is None`
matches every gist, otherwise `argument == gist.visibility`. -/
def visMatch (arg : Option String) (g : Gist) : Bool :=
  match arg with
  | Option.none => true
  | some v => v == g.visibility

/-- The languages test of `filter_gists` (index 1): `argument is None`
matches every gist, otherwise `gist.language in argument`. -/
def langMatch (arg : Option (List String)) (g : Gist) : Bool :=
  match arg with
  | Option.none => true
  | some ls => decide (g.language ∈ ls)

/-- The date-range test of `filter_gists`, with the `None` case. -/
def dateMatchOpt (arg : Option (List Date)) (g : Gist) : Bool :=
  match arg with
  | Option.none => true
  | some ds => dateMatch ds g.created_date

/-- One inner `for gist in gists` pass of `filter_gists`: the ids of the
gists the dimension test matches, in list order. -/
def matchedIds (f : Gist → Bool) (gists : List Gist) : List String :=
  gists.filterMap fun g => if f g then some g.id else Option.none

/-- Model of `filter_gists(relevant_args, gists)`: per-dimension matched-id lists,
then `set(gist_ids[0]).intersection(*gist_ids[1:])`.  The source finally
converts the set to a list in unspecified (hash) order; the result is
modelled as the id set itself. -/
def filter_gists (c : Criteria) (gists : List Gist) : Finset String :=
  (matchedIds (visMatch c.visibility) gists).toFinset ∩
    (matchedIds (langMatch c.languages) gists).toFinset ∩
    (matchedIds (dateMatchOpt c.date_range) gists).toFinset

/-- An observable step of the fetch loop in `cli`: a GET request for a
page (with its `per_page` parameter) or a `sleep(1)` pacing wait. -/
inductive FEvent where
  | request (page : Nat) (perPage : Nat)
  | sleep
deriving DecidableEq, Repr

/-- The page number of a request event. -/
def FEvent.pageOf : FEvent → Option Nat
  | .request p _ => some p
  | .sleep => Option.none

/-- The gists of page `p` under the all-pages-normalize hypothesis:
`create_gists` of the raw page, `[]` if it raises. -/
def pageGists (pages : Nat → List RawGist) (p : Nat) : List Gist :=
  match create_gists (pages p) with
  | .ok gs => gs
  | .error _ => []

/-- The `for page in range(1, 31)` fetch loop of `cli`, with `fuel`
iterations left and `page` the current page number: request the page with
`per_page=100`, normalize it with `create_gists`, extend `gists`, break
if the page yielded fewer than 30 gists, else `sleep(1)` and continue.
`pages p` is the JSON array the API returns for page `p`; a raised
exception propagates (transport failures from `raise_for_status` are not
modelled — the claims quantify over successful responses). -/
def fetchLoop (pages : Nat → List RawGist) : Nat → Nat → Except Err (List Gist × List FEvent)
  | 0, _ => .ok ([], [])
  | fuel + 1, page =>
    match create_gists (pages page) with
    | .error e => .error e
    | .ok pgGists =>
      if pgGists.length < 30 then
        .ok (pgGists, [.request page 100])
      else
        match fetchLoop pages fuel (page + 1) with
        | .error e => .error e
        | .ok (rest, evs) => .ok (pgGists ++ rest, .request page 100 :: .sleep :: evs)

/-- The whole fetch phase of `cli`: pages 1 up to the hard cap of 30. -/
def fetchRun (pages : Nat → List RawGist) : Except Err (List Gist × List FEvent) :=
  fetchLoop pages 30 1

/-- The event trace of a successful fetch run. -/
def fetchEvents (pages : Nat → List RawGist) : List FEvent :=
  match fetchRun pages with
  | .ok (_, evs) => evs
  | .error _ => []

/-- An observable step of `delete_gists`: a printed message, the
confirmation prompt, a `sleep(1)` pacing wait, or a DELETE request for
one gist id. -/
inductive DEvent where
  | report (s : String)
  | prompt
  | sleep
  | delete (id : String)
deriving DecidableEq, Repr

/-- Model of `delete_gists(args, gists)`.  `force` is `args.force`, `answer` the
string `input()` would return, `deleteOk i` whether the API's DELETE for
id `i` returns a success status, `ids` the target id list.  Returns the
event trace and the raised exception, if any.  Faithful to the source:
`response.raise_for_status()` stands AFTER the `for gist in gists` loop
(one indentation level out), so every delete request is issued and only
the final response's status is checked; likewise the success message is
printed only when that final check passes.  (Rich markup in the printed
strings is stripped; `len(gists)` is interpolated as in the f-string.) -/
def delete_gists (force : Bool) (answer : String) (deleteOk : String → Bool)
    (ids : List String) : List DEvent × Option Err :=
  if ids.length = 0 then
    ([.report "No gists are eligible for deletion."], Option.none)
  else
    let pre : List DEvent :=
      if force then []
      else
        [.report "Are you sure you proceed with the deletion?",
         .report (toString ids.length ++ " gists will be deleted."),
         .prompt]
    if ¬force ∧ answer ∉ (["Yes", "Y", "y"] : List String) then
      (pre, Option.none)
    else
      let loopEvs := ids.flatMap fun i => [DEvent.sleep, DEvent.delete i]
      match ids.getLast? with
      | Option.none => (pre, Option.none) -- unreachable: ids is nonempty here
      | some lastId =>
        if deleteOk lastId then
          (pre ++ loopEvs ++ [.report "Gists have been deleted!"], Option.none)
        else
          (pre ++ loopEvs, some Err.httpError)

/-! ### Helper lemmas -/

lemma mem_matchedIds {f : Gist → Bool} {gists : List Gist} {i : String} :
    i ∈ matchedIds f gists ↔ ∃ g ∈ gists, f g = true ∧ g.id = i := by
  simp [matchedIds, List.mem_filterMap, Option.ite_none_right_eq_some]

lemma visMatch_eq_true_iff {arg : Option String} {g : Gist} :
    visMatch arg g = true ↔ ∀ v, arg = some v → g.visibility = v := by
  cases arg with
  | none => simp [visMatch]
  | some v =>
    simp only [visMatch, beq_iff_eq, Option.some.injEq, forall_eq']
    exact eq_comm

lemma langMatch_eq_true_iff {arg : Option (List String)} {g : Gist} :
    langMatch arg g = true ↔ ∀ ls, arg = some ls → g.language ∈ ls := by
  cases arg <;> simp [langMatch]

lemma dateMatchOpt_eq_true_iff {arg : Option (List Date)} {g : Gist} :
    dateMatchOpt arg g = true ↔ ∀ ds, arg = some ds → dateMatch ds g.created_date = true := by
  cases arg <;> simp [dateMatchOpt]

lemma mem_filter_gists {c : Criteria} {gists : List Gist} {i : String} :
    i ∈ filter_gists c gists ↔
      (∃ g ∈ gists, visMatch c.visibility g = true ∧ g.id = i) ∧
      (∃ g ∈ gists, langMatch c.languages g = true ∧ g.id = i) ∧
      (∃ g ∈ gists, dateMatchOpt c.date_range g = true ∧ g.id = i) := by
  simp [filter_gists, Finset.mem_inter, List.mem_toFinset, mem_matchedIds, and_assoc]

/-! ### C1: the filter engine -/

/-- C1: for a record collection with (upstream-guaranteed) unique ids, the
filter engine's result contains a record's id iff the record satisfies
every present dimension of the criteria — an absent dimension is
vacuously true, visibility requires equality, languages requires
membership, the date range is per `dateMatch` — and with zero present
dimensions the result is the full id set. -/
theorem filter_gists_spec (c : Criteria) (gists : List Gist)
    (hnd : (gists.map Gist.id).Nodup) :
    (∀ g ∈ gists, (g.id ∈ filter_gists c gists ↔
      ((∀ v, c.visibility = some v → g.visibility = v) ∧
       (∀ ls, c.languages = some ls → g.language ∈ ls) ∧
       (∀ ds, c.date_range = some ds → dateMatch ds g.created_date = true)))) ∧
    (c.visibility = Option.none → c.languages = Option.none → c.date_range = Option.none →
      filter_gists c gists = (gists.map Gist.id).toFinset) := by
  constructor
  · intro g hg
    rw [mem_filter_gists]
    constructor
    · rintro ⟨⟨g1, hg1, hf1, hi1⟩, ⟨g2, hg2, hf2, hi2⟩, ⟨g3, hg3, hf3, hi3⟩⟩
      have e1 : g1 = g := List.inj_on_of_nodup_map hnd hg1 hg hi1
      have e2 : g2 = g := List.inj_on_of_nodup_map hnd hg2 hg hi2
      have e3 : g3 = g := List.inj_on_of_nodup_map hnd hg3 hg hi3
      subst e1; subst e2; subst e3
      exact ⟨visMatch_eq_true_iff.mp hf1, langMatch_eq_true_iff.mp hf2,
        dateMatchOpt_eq_true_iff.mp hf3⟩
    · rintro ⟨h1, h2, h3⟩
      exact ⟨⟨g, hg, visMatch_eq_true_iff.mpr h1, rfl⟩,
        ⟨g, hg, langMatch_eq_true_iff.mpr h2, rfl⟩,
        ⟨g, hg, dateMatchOpt_eq_true_iff.mpr h3, rfl⟩⟩
  · intro h1 h2 h3
    ext i
    rw [mem_filter_gists, h1, h2, h3]
    simp [visMatch, langMatch, dateMatchOpt, List.mem_map, eq_comm]

/-- A normalized collection matching the spec's worked scenario. -/
def wGists : List Gist :=
  [⟨"A", "secret", "Clojure", ⟨2024, 7, 12⟩⟩,
   ⟨"B", "public", "Python", ⟨2024, 7, 10⟩⟩,
   ⟨"C", "public", "Unknown", ⟨2024, 7, 10⟩⟩]

/-- The criterion triple (visibility=public, languages=None, dates=None). -/
def wCrit : Criteria := ⟨some "public", Option.none, Option.none⟩

/-- Concrete record "B" of the scenario. -/
def gB : Gist := ⟨"B", "public", "Python", ⟨2024, 7, 10⟩⟩

/-- Witness for C1 at the spec's scenario inputs. -/
theorem filter_gists_spec_witness :
    gB.id ∈ filter_gists wCrit wGists ↔
      ((∀ v, wCrit.visibility = some v → gB.visibility = v) ∧
       (∀ ls, wCrit.languages = some ls → gB.language ∈ ls) ∧
       (∀ ds, wCrit.date_range = some ds → dateMatch ds gB.created_date = true)) :=
  (filter_gists_spec wCrit wGists (by decide)).1 gB (by decide)

/-! ### C7: the date-range dimension -/

lemma Date.le_refl (a : Date) : Date.le a a = true := by
  simp [Date.le]

lemma Date.le_trans {a b c : Date} (h1 : Date.le a b = true) (h2 : Date.le b c = true) :
    Date.le a c = true := by
  simp only [Date.le, decide_eq_true_eq] at *
  omega

lemma mem_filter_gists_date {ds : List Date} {g : Gist} :
    g.id ∈ filter_gists ⟨Option.none, Option.none, some ds⟩ [g] ↔
      dateMatch ds g.created_date = true := by
  simp [mem_filter_gists, visMatch, langMatch, dateMatchOpt]

/-- C7: with one supplied date a record matches exactly on equality of
its `created_date`; with two it matches exactly on the inclusive
interval `[first, second]` (so either boundary matches, given an
ascending pair); a descending pair is not reordered — it matches
nothing. -/
theorem date_range_matching (g : Gist) (d d1 d2 : Date) :
    (g.id ∈ filter_gists ⟨Option.none, Option.none, some [d]⟩ [g] ↔ g.created_date = d) ∧
    (g.id ∈ filter_gists ⟨Option.none, Option.none, some [d1, d2]⟩ [g] ↔
      (Date.le d1 g.created_date = true ∧ Date.le g.created_date d2 = true)) ∧
    (Date.le d1 d2 = true → (g.created_date = d1 ∨ g.created_date = d2) →
      g.id ∈ filter_gists ⟨Option.none, Option.none, some [d1, d2]⟩ [g]) ∧
    (Date.le d1 d2 = false →
      g.id ∉ filter_gists ⟨Option.none, Option.none, some [d1, d2]⟩ [g]) := by
  refine ⟨?_, ?_, ?_, ?_⟩
  · rw [mem_filter_gists_date]
    simp [dateMatch]
  · rw [mem_filter_gists_date]
    simp [dateMatch]
  · intro hle hor
    rw [mem_filter_gists_date]
    simp only [dateMatch, Bool.and_eq_true]
    rcases hor with h | h
    · rw [h]; exact ⟨Date.le_refl d1, hle⟩
    · rw [h]; exact ⟨hle, Date.le_refl d2⟩
  · intro hdesc hmem
    rw [mem_filter_gists_date] at hmem
    simp only [dateMatch, Bool.and_eq_true] at hmem
    have := Date.le_trans hmem.1 hmem.2
    rw [hdesc] at this
    exact Bool.false_ne_true this

/-- Witness for C7: record "B" (created 2024-07-10) matches the inclusive
range [2024-07-10, 2024-07-31] on its start boundary. -/
theorem date_range_matching_witness :
    gB.id ∈ filter_gists ⟨Option.none, Option.none,
      some [⟨2024, 7, 10⟩, ⟨2024, 7, 31⟩]⟩ [gB] :=
  (date_range_matching gB ⟨2024, 7, 10⟩ ⟨2024, 7, 10⟩ ⟨2024, 7, 31⟩).2.2.1
    (by decide) (Or.inl (by decide))

/-! ### C5 and C10: the record normalizer -/

lemma createGist_ok {r : RawGist} (hf : r.files ≠ []) {dt : DateTime}
    (hts : strptimeTS r.created_at = some dt) :
    createGist r = Except.ok ⟨r.id,
      if truthyOpt r.public then "public" else "secret",
      (match r.files.head? with
        | some (_, some l) => l
        | _ => "Unknown"),
      dt.date⟩ := by
  rcases hfs : r.files with _ | ⟨⟨name, lang⟩, tl⟩
  · exact absurd hfs hf
  · cases lang <;> simp [createGist, hfs, hts]

/-- C5: on raw records that each have at least one file entry (and a
parseable timestamp, as the API guarantees), `create_gists` produces
exactly one `Gist` per input entry in order; the language is the first
file's label, `"Unknown"` when that label is null; `public = true` gives
visibility `"public"`, `false` gives `"secret"`; the created date is the
timestamp's calendar date with the time of day discarded. -/
theorem create_gists_normalizes (raws : List RawGist)
    (h : ∀ r ∈ raws, r.files ≠ [] ∧ (strptimeTS r.created_at).isSome) :
    ∃ gs, create_gists raws = Except.ok gs ∧
      List.Forall₂ (fun (r : RawGist) (g : Gist) =>
        g.id = r.id ∧
        (g.language = match r.files.head? with
          | some (_, some l) => l
          | _ => "Unknown") ∧
        (∀ b, r.public = some (PyVal.pyBool b) →
          g.visibility = if b then "public" else "secret") ∧
        (∃ dt, strptimeTS r.created_at = some dt ∧ g.created_date = dt.date)) raws gs := by
  induction raws with
  | nil => exact ⟨[], rfl, List.Forall₂.nil⟩
  | cons r rest ih =>
    obtain ⟨hf, hts⟩ := h r (List.mem_cons_self r rest)
    obtain ⟨dt, hdt⟩ := Option.isSome_iff_exists.mp hts
    obtain ⟨gs, hgs, hfa⟩ := ih (fun r' hr' => h r' (List.mem_cons_of_mem r hr'))
    refine ⟨(⟨r.id, if truthyOpt r.public then "public" else "secret",
      (match r.files.head? with
        | some (_, some l) => l
        | _ => "Unknown"), dt.date⟩ : Gist) :: gs, ?_, ?_⟩
    · simp only [create_gists, createGist_ok hf hdt, hgs]
    · refine List.Forall₂.cons ⟨rfl, rfl, ?_, dt, hdt, rfl⟩ hfa
      intro b hb
      simp [hb, truthyOpt, PyVal.truthy]

/-- Raw records exercising the normalizer: one secret Clojure gist, one
public gist whose first file has a null language. -/
def wRaws : List RawGist :=
  [⟨"A", some (.pyBool false), [("f.clj", some "Clojure")], "2024-07-12T04:44:07Z"⟩,
   ⟨"C", some (.pyBool true), [("f.txt", Option.none)], "2024-07-10T23:59:59Z"⟩]

/-- Witness for C5 at a concrete raw collection. -/
theorem create_gists_normalizes_witness :
    ∃ gs, create_gists wRaws = Except.ok gs ∧
      List.Forall₂ (fun (r : RawGist) (g : Gist) =>
        g.id = r.id ∧
        (g.language = match r.files.head? with
          | some (_, some l) => l
          | _ => "Unknown") ∧
        (∀ b, r.public = some (PyVal.pyBool b) →
          g.visibility = if b then "public" else "secret") ∧
        (∃ dt, strptimeTS r.created_at = some dt ∧ g.created_date = dt.date)) wRaws gs :=
  create_gists_normalizes wRaws (by decide)

/-- C10: the normalizer decides visibility by Python truthiness of the
raw `"public"` value, not by a strict boolean check: a missing key or
any falsy value gives `"secret"` without error, any truthy value gives
`"public"`. -/
theorem createGist_visibility_truthiness (r : RawGist) (hf : r.files ≠ [])
    (hts : (strptimeTS r.created_at).isSome) :
    ∃ g, createGist r = Except.ok g ∧
      g.visibility = (if truthyOpt r.public then "public" else "secret") ∧
      (r.public = Option.none → g.visibility = "secret") ∧
      (∀ v, r.public = some v → v.truthy = false → g.visibility = "secret") ∧
      (∀ v, r.public = some v → v.truthy = true → g.visibility = "public") := by
  obtain ⟨dt, hdt⟩ := Option.isSome_iff_exists.mp hts
  refine ⟨_, createGist_ok hf hdt, rfl, ?_, ?_, ?_⟩
  · intro hp; simp [hp, truthyOpt]
  · intro v hp hv; simp [hp, truthyOpt, hv]
  · intro v hp hv; simp [hp, truthyOpt, hv]

/-- A raw record whose `"public"` key is missing entirely. -/
def wRawNoPublic : RawGist :=
  ⟨"D", Option.none, [("f.py", some "Python")], "2024-07-12T04:44:07Z"⟩

/-- Witness for C10: the missing `"public"` key normalizes to
`"secret"` without error. -/
theorem createGist_visibility_truthiness_witness :
    ∃ g, createGist wRawNoPublic = Except.ok g ∧
      g.visibility = (if truthyOpt wRawNoPublic.public then "public" else "secret") ∧
      (wRawNoPublic.public = Option.none → g.visibility = "secret") ∧
      (∀ v, wRawNoPublic.public = some v → v.truthy = false → g.visibility = "secret") ∧
      (∀ v, wRawNoPublic.public = some v → v.truthy = true → g.visibility = "public") :=
  createGist_visibility_truthiness wRawNoPublic (by decide) (by decide)

/-! ### C3: the date-argument parser -/

/-- C3 (failing input): `parse_date_arguments` guards with
`len(date_arguments) == 3`, so a list of exactly three strings raises
`TypeError`, but FOUR well-formed date strings are parsed and returned —
contradicting the code's own error message ("Only pass max 2 dates") and
the claimed behaviour for every sequence of three or more. -/
theorem parse_date_arguments_four_dates :
    parse_date_arguments ["2024-01-01", "2024-01-02", "2024-01-03", "2024-01-04"] =
      Except.ok [⟨2024, 1, 1⟩, ⟨2024, 1, 2⟩, ⟨2024, 1, 3⟩, ⟨2024, 1, 4⟩] ∧
    parse_date_arguments ["2024-01-01", "2024-01-02", "2024-01-03"] =
      Except.error ParseErr.typeError :=
  ⟨rfl, rfl⟩

/-! ### C2: failed deletes do not abort the sequence -/

/-- C2 (failing input): with the force flag set and targets `["a", "b"]`
where the API delete of `"a"` fails and of `"b"` succeeds, the delete
request for `"b"` is still issued and the run even finishes with the
success message and no error: `response.raise_for_status()` stands after
the loop and checks only the final response.  Conversely, when only the
LAST delete fails, the error surfaces — but only after every request was
already issued. -/
theorem delete_gists_no_abort :
    delete_gists true "" (fun i => i != "a") ["a", "b"] =
      ([DEvent.sleep, DEvent.delete "a", DEvent.sleep, DEvent.delete "b",
        DEvent.report "Gists have been deleted!"], Option.none) ∧
    delete_gists true "" (fun i => i != "b") ["a", "b"] =
      ([DEvent.sleep, DEvent.delete "a", DEvent.sleep, DEvent.delete "b"],
        some Err.httpError) :=
  ⟨rfl, rfl⟩

/-! ### C9: the empty target collection -/

/-- C9: called on an empty id collection, `delete_gists` only reports
that nothing is eligible for deletion: no confirmation prompt, no pacing
wait, no delete request, no error — whatever the force flag, response
and API behaviour. -/
theorem delete_gists_empty (force : Bool) (answer : String) (deleteOk : String → Bool) :
    delete_gists force answer deleteOk [] =
      ([DEvent.report "No gists are eligible for deletion."], Option.none) ∧
    ∀ e ∈ (delete_gists force answer deleteOk []).1,
      e ≠ DEvent.prompt ∧ e ≠ DEvent.sleep ∧ ∀ i, e ≠ DEvent.delete i := by
  constructor
  · rfl
  · intro e he
    have heq : e = DEvent.report "No gists are eligible for deletion." := by
      simpa [delete_gists] using he
    subst heq
    exact ⟨by simp, by simp, fun i => by simp⟩

/-! ### C8: the confirmation gate -/

/-- The affirmative tokens of the confirmation prompt. -/
def affirmatives : List String := ["Yes", "Y", "y"]

lemma delete_gists_not_confirmed {answer : String} {deleteOk : String → Bool}
    {ids : List String} (hne : ids ≠ []) (hans : answer ∉ affirmatives) :
    delete_gists false answer deleteOk ids =
      ([.report "Are you sure you proceed with the deletion?",
        .report (toString ids.length ++ " gists will be deleted."),
        .prompt], Option.none) := by
  have hlen : ¬(ids.length = 0) := fun h => hne (List.length_eq_zero.mp h)
  unfold delete_gists
  rw [if_neg hlen, if_pos ⟨by simp, hans⟩]
  simp

lemma delete_gists_confirmed_mem {answer : String} {deleteOk : String → Bool}
    {ids : List String} (hne : ids ≠ []) (hans : answer ∈ affirmatives) :
    ∀ i ∈ ids, DEvent.delete i ∈ (delete_gists false answer deleteOk ids).1 := by
  intro i hi
  have hmem : DEvent.delete i ∈ ids.flatMap fun j => [DEvent.sleep, DEvent.delete j] :=
    List.mem_flatMap.mpr ⟨i, hi, by simp⟩
  have hlen : ¬(ids.length = 0) := fun h => hne (List.length_eq_zero.mp h)
  unfold delete_gists
  rw [if_neg hlen, if_neg (fun h => h.2 hans)]
  cases hq : ids.getLast? with
  | none => exact absurd (List.getLast?_eq_none_iff.mp hq) hne
  | some l =>
    by_cases hdel : deleteOk l = true <;> simp [hdel, hmem]

/-- C8: for a non-empty id collection with the force flag unset, delete
requests are issued iff the confirmation response is exactly one of
"Yes", "Y", "y"; any other response (the empty string included) produces
no delete request and no error. -/
theorem delete_gists_confirmation (answer : String) (deleteOk : String → Bool)
    (ids : List String) (hne : ids ≠ []) :
    ((∃ i, DEvent.delete i ∈ (delete_gists false answer deleteOk ids).1) ↔
      answer ∈ (["Yes", "Y", "y"] : List String)) ∧
    (answer ∉ (["Yes", "Y", "y"] : List String) →
      (∀ i, DEvent.delete i ∉ (delete_gists false answer deleteOk ids).1) ∧
      (delete_gists false answer deleteOk ids).2 = Option.none) := by
  by_cases hans : answer ∈ affirmatives
  · refine ⟨⟨fun _ => hans, fun _ => ?_⟩, fun hno => absurd hans hno⟩
    obtain ⟨i, hi⟩ : ∃ i, i ∈ ids := by
      cases ids with
      | nil => exact absurd rfl hne
      | cons a tl => exact ⟨a, List.mem_cons_self a tl⟩
    exact ⟨i, delete_gists_confirmed_mem hne hans i hi⟩
  · have htr := @delete_gists_not_confirmed answer deleteOk ids hne hans
    constructor
    · constructor
      · rintro ⟨i, hi⟩
        rw [htr] at hi
        simp at hi
      · intro h; exact absurd h hans
    · intro _
      refine ⟨fun i hi => ?_, by rw [htr]⟩
      rw [htr] at hi
      simp at hi

/-- Witness for C8: the response "n" on a one-element collection issues
no delete request and raises no error. -/
theorem delete_gists_confirmation_witness :
    ((∃ i, DEvent.delete i ∈ (delete_gists false "n" (fun _ => true) ["a"]).1) ↔
      "n" ∈ (["Yes", "Y", "y"] : List String)) ∧
    ("n" ∉ (["Yes", "Y", "y"] : List String) →
      (∀ i, DEvent.delete i ∉ (delete_gists false "n" (fun _ => true) ["a"]).1) ∧
      (delete_gists false "n" (fun _ => true) ["a"]).2 = Option.none) :=
  delete_gists_confirmation "n" (fun _ => true) ["a"] (by decide)

/-! ### The fetch loop: characterization, C6 and C4 -/

lemma create_gists_length : ∀ {raws : List RawGist} {gs : List Gist},
    create_gists raws = Except.ok gs → gs.length = raws.length := by
  intro raws
  induction raws with
  | nil => intro gs h; cases h; rfl
  | cons r rest ih =>
    intro gs h
    simp only [create_gists] at h
    cases hc : createGist r with
    | error e => rw [hc] at h; cases h
    | ok g =>
      rw [hc] at h
      cases hr : create_gists rest with
      | error e => rw [hr] at h; cases h
      | ok gs' =>
        rw [hr] at h
        cases h
        simp [ih hr]

lemma pageGists_eq {pages : Nat → List RawGist} {p : Nat} {gs : List Gist}
    (h : create_gists (pages p) = Except.ok gs) : pageGists pages p = gs := by
  simp [pageGists, h]

/-- Shape of a successful fetch run with `fuel` pages left, starting at
page `start`: either some page within the fuel is short (fewer than 30
records) — the loop requests up to and including the first such page,
with exactly one sleep after each requested page except the last — or no
page is short and the loop requests all `fuel` pages, sleeping after
every one of them, the last included. -/
lemma fetchLoop_char (pages : Nat → List RawGist)
    (hok : ∀ p, ∃ gs, create_gists (pages p) = Except.ok gs) :
    ∀ fuel start,
      (∃ j, j < fuel ∧ (pages (start + j)).length < 30 ∧
        (∀ i, i < j → ¬ (pages (start + i)).length < 30) ∧
        fetchLoop pages fuel start =
          Except.ok ((List.range' start (j + 1)).flatMap (pageGists pages),
            ((List.range' start j).flatMap fun p => [FEvent.request p 100, FEvent.sleep]) ++
              [FEvent.request (start + j) 100]))
      ∨ ((∀ i, i < fuel → ¬ (pages (start + i)).length < 30) ∧
        fetchLoop pages fuel start =
          Except.ok ((List.range' start fuel).flatMap (pageGists pages),
            (List.range' start fuel).flatMap fun p => [FEvent.request p 100, FEvent.sleep])) := by
  intro fuel
  induction fuel with
  | zero =>
    intro start
    right
    exact ⟨fun i hi => absurd hi (Nat.not_lt_zero i), by simp [fetchLoop]⟩
  | succ f ih =>
    intro start
    obtain ⟨gs, hgs⟩ := hok start
    have hlen : gs.length = (pages start).length := create_gists_length hgs
    by_cases hs : (pages start).length < 30
    · left
      refine ⟨0, Nat.succ_pos f, by simpa using hs,
        fun i hi => absurd hi (Nat.not_lt_zero i), ?_⟩
      simp only [fetchLoop, hgs]
      rw [if_pos (by rw [hlen]; exact hs)]
      simp [List.range'_succ, pageGists_eq hgs]
    · have hlt : ¬ (gs.length < 30) := by rw [hlen]; exact hs
      rcases ih (start + 1) with ⟨j, hj, hsj, hprev, heq⟩ | ⟨hall, heq⟩
      · left
        refine ⟨j + 1, Nat.succ_lt_succ hj, ?_, ?_, ?_⟩
        · rw [show start + (j + 1) = (start + 1) + j by omega]
          exact hsj
        · intro i hi
          cases i with
          | zero => simpa using hs
          | succ i' =>
            rw [show start + (i' + 1) = (start + 1) + i' by omega]
            exact hprev i' (Nat.lt_of_succ_lt_succ hi)
        · simp only [fetchLoop, hgs, if_neg hlt, heq]
          rw [List.range'_succ start (j + 1) 1, List.range'_succ start j 1]
          rw [List.flatMap_cons, List.flatMap_cons, pageGists_eq hgs]
          rw [show start + (j + 1) = (start + 1) + j by omega]
          simp
      · right
        refine ⟨?_, ?_⟩
        · intro i hi
          cases i with
          | zero => simpa using hs
          | succ i' =>
            rw [show start + (i' + 1) = (start + 1) + i' by omega]
            exact hall i' (Nat.lt_of_succ_lt_succ hi)
        · simp only [fetchLoop, hgs, if_neg hlt, heq]
          rw [List.range'_succ start f 1]
          rw [List.flatMap_cons, List.flatMap_cons, pageGists_eq hgs]
          simp

lemma filterMap_pageOf_flatMap (l : List Nat) :
    (l.flatMap fun p => [FEvent.request p 100, FEvent.sleep]).filterMap FEvent.pageOf = l := by
  induction l with
  | nil => rfl
  | cons a tl ih => simp [List.flatMap_cons, List.filterMap_append, FEvent.pageOf, ih]

lemma req_mem_flatMap {l : List Nat} {p n : Nat}
    (h : FEvent.request p n ∈ l.flatMap fun q => [FEvent.request q 100, FEvent.sleep]) :
    n = 100 := by
  rw [List.mem_flatMap] at h
  obtain ⟨a, -, hmem⟩ := h
  simp at hmem
  exact hmem.2

/-- C6: a successful fetch run requests pages 1, 2, … in order with page
size 100, continues past every page of 30 or more records, stops at the
first page of 29 or fewer (treating it as final) or after the hard cap
of 30 pages, whichever comes first, and returns the normalized records
of the requested pages in page-then-within-page order. -/
theorem fetch_pagination (pages : Nat → List RawGist)
    (hok : ∀ p, ∃ gs, create_gists (pages p) = Except.ok gs) :
    ∃ k evs, 1 ≤ k ∧ k ≤ 30 ∧
      fetchRun pages = Except.ok ((List.range' 1 k).flatMap (pageGists pages), evs) ∧
      evs.filterMap FEvent.pageOf = List.range' 1 k ∧
      (∀ p n, FEvent.request p n ∈ evs → n = 100) ∧
      (∀ p, 1 ≤ p → p < k → ¬ (pages p).length < 30) ∧
      ((pages k).length < 30 ∨ k = 30) := by
  rcases fetchLoop_char pages hok 30 1 with ⟨j, hj, hsj, hprev, heq⟩ | ⟨hall, heq⟩
  · refine ⟨j + 1,
      ((List.range' 1 j).flatMap fun p => [FEvent.request p 100, FEvent.sleep]) ++
        [FEvent.request (1 + j) 100],
      by omega, by omega, heq, ?_, ?_, ?_, ?_⟩
    · rw [List.filterMap_append, filterMap_pageOf_flatMap]
      rw [List.range'_concat 1 j]
      simp [FEvent.pageOf]
    · intro p n hmem
      rcases List.mem_append.mp hmem with h' | h'
      · exact req_mem_flatMap h'
      · simp only [List.mem_singleton] at h'
        cases h'
        rfl
    · intro p h1 hpk
      have := hprev (p - 1) (by omega)
      rwa [show 1 + (p - 1) = p by omega] at this
    · left
      rwa [show j + 1 = 1 + j by omega]
  · refine ⟨30, (List.range' 1 30).flatMap fun p => [FEvent.request p 100, FEvent.sleep],
      by omega, by omega, heq, filterMap_pageOf_flatMap _, ?_, ?_, Or.inr rfl⟩
    · intro p n hmem
      exact req_mem_flatMap hmem
    · intro p h1 hpk
      have := hall (p - 1) (by omega)
      rwa [show 1 + (p - 1) = p by omega] at this

/-- Pages with fewer than 30 records each: the fetch stops after page 1. -/
def pagesOne : Nat → List RawGist := fun _ => wRaws

/-- Witness for C6 at a concrete page function. -/
theorem fetch_pagination_witness :
    ∃ k evs, 1 ≤ k ∧ k ≤ 30 ∧
      fetchRun pagesOne = Except.ok ((List.range' 1 k).flatMap (pageGists pagesOne), evs) ∧
      evs.filterMap FEvent.pageOf = List.range' 1 k ∧
      (∀ p n, FEvent.request p n ∈ evs → n = 100) ∧
      (∀ p, 1 ≤ p → p < k → ¬ (pagesOne p).length < 30) ∧
      ((pagesOne k).length < 30 ∨ k = 30) :=
  fetch_pagination pagesOne (fun _ => ⟨_, rfl⟩)

/-- C4 amended: the fetch paces with exactly one 1-unit wait between
successive page requests and no wait before the first; when a short page
ends the run there is no wait after the terminal request, but when the
hard cap ends it (pages 1–30 all full-sized) one wait follows the final,
30th request. -/
theorem fetch_pacing (pages : Nat → List RawGist)
    (hok : ∀ p, ∃ gs, create_gists (pages p) = Except.ok gs) :
    (∃ k, 1 ≤ k ∧ k ≤ 30 ∧ (pages k).length < 30 ∧
      fetchEvents pages =
        ((List.range' 1 (k - 1)).flatMap fun p => [FEvent.request p 100, FEvent.sleep]) ++
          [FEvent.request k 100]) ∨
    ((∀ p, 1 ≤ p → p ≤ 30 → ¬ (pages p).length < 30) ∧
      fetchEvents pages = (List.range' 1 30).flatMap
        fun p => [FEvent.request p 100, FEvent.sleep]) := by
  rcases fetchLoop_char pages hok 30 1 with ⟨j, hj, hsj, hprev, heq⟩ | ⟨hall, heq⟩
  · left
    refine ⟨j + 1, by omega, by omega, by rwa [show j + 1 = 1 + j by omega], ?_⟩
    simp only [fetchEvents, fetchRun, heq]
    rw [show j + 1 - 1 = j by omega, show 1 + j = j + 1 by omega]
  · right
    refine ⟨?_, by simp only [fetchEvents, fetchRun, heq]⟩
    intro p h1 h30
    have := hall (p - 1) (by omega)
    rwa [show 1 + (p - 1) = p by omega] at this

/-- Witness for the amended C4 at a concrete page function. -/
theorem fetch_pacing_witness :
    (∃ k, 1 ≤ k ∧ k ≤ 30 ∧ (pagesOne k).length < 30 ∧
      fetchEvents pagesOne =
        ((List.range' 1 (k - 1)).flatMap fun p => [FEvent.request p 100, FEvent.sleep]) ++
          [FEvent.request k 100]) ∨
    ((∀ p, 1 ≤ p → p ≤ 30 → ¬ (pagesOne p).length < 30) ∧
      fetchEvents pagesOne = (List.range' 1 30).flatMap
        fun p => [FEvent.request p 100, FEvent.sleep]) :=
  fetch_pacing pagesOne (fun _ => ⟨_, rfl⟩)

/-- Thirty full-sized pages: the hard cap, not a short page, ends the
fetch. -/
def pagesFull : Nat → List RawGist :=
  fun _ => List.replicate 30
    (⟨"x", some (.pyBool true), [("f.py", some "Python")], "2024-07-12T04:44:07Z"⟩ : RawGist)

/-- C4 counterexample: when the terminal page is the 30th page reached
under the hard cap, the trace holds 30 requests AND 30 sleeps — the last
event is a pacing wait issued after the terminal page request,
contradicting "no wait after the terminal page". -/
theorem fetch_pacing_counterexample :
    (fetchEvents pagesFull).filterMap FEvent.pageOf = List.range' 1 30 ∧
    (fetchEvents pagesFull).count FEvent.sleep = 30 ∧
    (fetchEvents pagesFull).getLast? = some FEvent.sleep := by
  refine ⟨by decide, by decide, by decide⟩

end GistsGone
